import Mathlib

/-
Verification of the GRand pseudorandom-generator wrapper (grand.h).

The C++ class GRand wraps a std::mt19937 engine together with a
`_seed_needed` flag.  Sampling members (`i`, `d`, `b`, the two
`operator()` overloads) first run `ck_seed`, which — when the flag is
set — seeds the engine from `std::random_device` and clears the flag.

Shallow embedding conventions:
  * the mt19937 engine state is a list of 624 32-bit words plus a
    position index; all word arithmetic is `% 2^32`;
  * `double` values are modelled as exact rationals (`ℚ`); the
    standard-library distributions are modelled by the libstdc++
    algorithms in exact arithmetic (`generate_canonical` draws two
    32-bit words, `uniform_int_distribution` uses the downscaling
    rejection loop, here given explicit fuel with default 0 on
    exhaustion — 0 lies in every requested range);
  * the entropy source `std::random_device` is modelled as an explicit
    stream (`List Nat`) threaded through each call; a call reports
    whether it drew from the stream (`dev` field of `Res`);
  * each C++ member that mutates the object becomes a function from the
    old state (plus the entropy stream) to a `Res` record holding the
    return value, the new state, the rest of the stream, and the
    device-draw flag.
-/

/-- State of a std::mt19937 engine: 624 32-bit words plus the position
of the next word to be output (624 means a twist is pending). -/
structure MT where
  mt : List Nat
  mti : Nat
deriving DecidableEq

/-- Tail of the mt19937 seeding recurrence:
x[i] = (1812433253 * (x[i-1] xor (x[i-1] >> 30)) + i) mod 2^32. -/
def mtSeedFrom (prev i : Nat) : Nat → List Nat
  | 0 => []
  | c + 1 =>
    let cur := (1812433253 * (prev ^^^ (prev >>> 30)) + i) % 4294967296
    cur :: mtSeedFrom cur (i + 1) c

/-- Seeding of mt19937 from a value (mt19937::seed / the seed
constructor): x[0] = s mod 2^32, then the recurrence, position 624. -/
def mtInit (s : Nat) : MT :=
  let x0 := s % 4294967296
  ⟨x0 :: mtSeedFrom x0 1 623, 624⟩

/-- One in-place step of the mt19937 twist at index k, following the
reference implementation (indices past k in this pass read the old
values, indices before k read the already-updated ones). -/
def twistStep (mt : List Nat) (k : Nat) : List Nat :=
  let y := (mt.getD k 0 &&& 0x80000000) ||| (mt.getD ((k + 1) % 624) 0 &&& 0x7fffffff)
  let v := (mt.getD ((k + 397) % 624) 0) ^^^ (y >>> 1) ^^^ (if y % 2 = 1 then 0x9908b0df else 0)
  mt.set k v

/-- Full mt19937 twist: regenerate all 624 words in place. -/
def mtTwist (mt : List Nat) : List Nat :=
  (List.range 624).foldl twistStep mt

/-- Advance the engine by one output word (mt19937::operator()):
twist if all words are consumed, then temper and return the current
word.  The trailing `% 2^32` makes the 32-bit bound explicit. -/
def mtNext (g : MT) : Nat × MT :=
  let g2 : MT := if g.mti ≥ 624 then ⟨mtTwist g.mt, 0⟩ else g
  let y0 := g2.mt.getD g2.mti 0
  let y1 := y0 ^^^ (y0 >>> 11)
  let y2 := y1 ^^^ ((y1 <<< 7) &&& 0x9d2c5680)
  let y3 := y2 ^^^ ((y2 <<< 15) &&& 0xefc60000)
  let y4 := y3 ^^^ (y3 >>> 18)
  (y4 % 4294967296, ⟨g2.mt, g2.mti + 1⟩)

/-- Fuel bound for the rejection loop of the uniform-integer
distribution (the C++ loop runs until acceptance; with this fuel the
model returns 0 on exhaustion, which lies in every requested range). -/
def uidFuel : Nat := 4096

/-- Rejection loop of libstdc++ uniform_int_distribution in the
downscaling case: draw a raw word, accept it when below `past` and
divide by `scaling`, otherwise retry. -/
def uidLoop (scaling past : Nat) : Nat → MT → Nat × MT
  | 0, g => (0, g)
  | fuel + 1, g =>
    let p := mtNext g
    if p.1 < past then (p.1 / scaling, p.2) else uidLoop scaling past fuel p.2

/-- Sample of std::uniform_int_distribution over [0, urange] driven by
mt19937 (engine range 2^32 - 1 exceeds urange for every `int` bound):
scaling = (2^32 - 1) / (urange + 1), past = (urange + 1) * scaling,
then the rejection loop. -/
def uidSample (urange : Nat) (g : MT) : Nat × MT :=
  let scaling := 4294967295 / (urange + 1)
  let past := (urange + 1) * scaling
  uidLoop scaling past uidFuel g

/-- Sample of std::generate_canonical for double (53 mantissa bits) from
a 32-bit engine: two raw words x0, x1 give (x0 + x1*2^32) / 2^64, a
rational in [0, 1). -/
def canonical (g : MT) : ℚ × MT :=
  let p1 := mtNext g
  let p2 := mtNext p1.2
  (((p1.1 : ℚ) + (p2.1 : ℚ) * 4294967296) / 18446744073709551616, p2.2)

/-- Sample of std::uniform_real_distribution over [lo, hi):
canonical * (hi - lo) + lo. -/
def urd (lo hi : ℚ) (g : MT) : ℚ × MT :=
  let c := canonical g
  (c.1 * (hi - lo) + lo, c.2)

/-- Sample of std::bernoulli_distribution with parameter p: true exactly
when a canonical draw is below p. -/
def bern (p : ℚ) (g : MT) : Bool × MT :=
  let c := canonical g
  (decide (c.1 < p), c.2)

/-- State of a GRand object: the `_seed_needed` flag and the mt19937
engine `_rng`. -/
structure GRand where
  seed_needed : Bool
  rng : MT
deriving DecidableEq

/-- Result of one call on a GRand object: return value, new object
state, remaining entropy stream, and whether std::random_device was
drawn from during the call. -/
structure Res (α : Type) where
  val : α
  st : GRand
  es : List Nat
  dev : Bool
deriving DecidableEq

/-- Default constructor GRand(): flag set, engine default-constructed
(mt19937 default seed 5489). -/
def mkDefault : GRand := ⟨true, mtInit 5489⟩

/-- Seed constructor GRand(s): flag cleared, engine seeded from s. -/
def mkSeeded (s : Nat) : GRand := ⟨false, mtInit s⟩

/-- Member ck_seed: if `_seed_needed` is set, clear it and seed the
engine from std::random_device (the head of the entropy stream);
otherwise do nothing. -/
def GRand.ck_seed (st : GRand) (es : List Nat) : Res Unit :=
  if st.seed_needed then ⟨(), ⟨false, mtInit (es.headD 0)⟩, es.tail, true⟩
  else ⟨(), st, es, false⟩

/-- Member seed() (no argument): set `_seed_needed`; the engine is left
untouched. -/
def GRand.seedReq (st : GRand) : GRand := ⟨true, st.rng⟩

/-- Member seed(s): clear `_seed_needed` and seed the engine from s. -/
def GRand.seedVal (_st : GRand) (s : Nat) : GRand := ⟨false, mtInit s⟩

/-- Member operator()(n): ck_seed, then 0 when n <= 0, else a
uniform_int_distribution sample over [0, n-1]. -/
def GRand.callN (st : GRand) (es : List Nat) (n : Int) : Res Int :=
  let c := GRand.ck_seed st es
  if n ≤ 0 then ⟨0, c.st, c.es, c.dev⟩
  else
    let q := uidSample (n - 1).toNat c.st.rng
    ⟨(q.1 : Int), ⟨c.st.seed_needed, q.2⟩, c.es, c.dev⟩

/-- Member i(n): implemented as operator()(n). -/
def GRand.i (st : GRand) (es : List Nat) (n : Int) : Res Int :=
  GRand.callN st es n

/-- Member d(x): ck_seed, then a uniform_real sample over [0, x) when
x > 0, the negation of a sample over [0, -x) when x < 0, and 0
otherwise. -/
def GRand.d (st : GRand) (es : List Nat) (x : ℚ) : Res ℚ :=
  let c := GRand.ck_seed st es
  if x > 0 then
    let p := urd 0 x c.st.rng
    ⟨p.1, ⟨c.st.seed_needed, p.2⟩, c.es, c.dev⟩
  else if x < 0 then
    let p := urd 0 (-x) c.st.rng
    ⟨-p.1, ⟨c.st.seed_needed, p.2⟩, c.es, c.dev⟩
  else ⟨0, c.st, c.es, c.dev⟩

/-- Member b(p): ck_seed, then false when p <= 0, true when p >= 1, else
a bernoulli_distribution sample. -/
def GRand.b (st : GRand) (es : List Nat) (p : ℚ) : Res Bool :=
  let c := GRand.ck_seed st es
  if p ≤ 0 then ⟨false, c.st, c.es, c.dev⟩
  else if p ≥ 1 then ⟨true, c.st, c.es, c.dev⟩
  else
    let q := bern p c.st.rng
    ⟨q.1, ⟨c.st.seed_needed, q.2⟩, c.es, c.dev⟩

/-- Member operator()() (no argument): ck_seed, then the next raw engine
word. -/
def GRand.call0 (st : GRand) (es : List Nat) : Res Nat :=
  let c := GRand.ck_seed st es
  let q := mtNext c.st.rng
  ⟨q.1, ⟨c.st.seed_needed, q.2⟩, c.es, c.dev⟩

/-- One public operation on a GRand object, for trace reasoning. -/
inductive Op where
  | i (n : Int)
  | d (x : ℚ)
  | b (p : ℚ)
  | call0
  | callN (n : Int)
  | seedReq
  | seedVal (s : Nat)
deriving DecidableEq

/-- Observable return value of one operation. -/
inductive Out where
  | int (v : Int)
  | rat (v : ℚ)
  | bool (v : Bool)
  | word (v : Nat)
  | unit
deriving DecidableEq

/-- Whether an operation is a sampling call (everything except the two
seed members). -/
def Op.isSampling : Op → Bool
  | .seedReq => false
  | .seedVal _ => false
  | _ => true

/-- Execute one operation on a GRand state. -/
def step (st : GRand) (es : List Nat) : Op → Res Out
  | .i n => let r := GRand.i st es n; ⟨.int r.val, r.st, r.es, r.dev⟩
  | .d x => let r := GRand.d st es x; ⟨.rat r.val, r.st, r.es, r.dev⟩
  | .b p => let r := GRand.b st es p; ⟨.bool r.val, r.st, r.es, r.dev⟩
  | .call0 => let r := GRand.call0 st es; ⟨.word r.val, r.st, r.es, r.dev⟩
  | .callN n => let r := GRand.callN st es n; ⟨.int r.val, r.st, r.es, r.dev⟩
  | .seedReq => ⟨.unit, GRand.seedReq st, es, false⟩
  | .seedVal s => ⟨.unit, GRand.seedVal st s, es, false⟩

/-- Result of running a list of operations: final state, remaining
entropy, the outputs in order, and the number of device draws. -/
structure RunRes where
  state : GRand
  es : List Nat
  outs : List Out
  devs : Nat
deriving DecidableEq

/-- Run a list of operations from a state. -/
def run (st : GRand) (es : List Nat) : List Op → RunRes
  | [] => ⟨st, es, [], 0⟩
  | op :: ops =>
    let r := step st es op
    let rest := run r.st r.es ops
    ⟨rest.state, rest.es, r.val :: rest.outs, (if r.dev then 1 else 0) + rest.devs⟩

/-- Expected value of the `_seed_needed` flag after one operation, as a
function of its value before: a no-argument seed request sets it, an
explicit seed clears it, and every sampling call clears it (through
ck_seed when it was set). -/
def nextPending (_cur : Bool) : Op → Bool
  | .seedReq => true
  | .seedVal _ => false
  | _ => false

/-- Expected value of the `_seed_needed` flag after a list of
operations. -/
def expectedPending (cur : Bool) : List Op → Bool
  | [] => cur
  | op :: ops => expectedPending (nextPending cur op) ops

/-- Modelled from the spec (claim C8's literal wording): whether "no
explicit seed has been applied since construction or since the
no-argument seed request", as a trace predicate.  `cur` is the value at
the start of the trace (true after a no-seed construction).  Only the
two seed members change it: an explicit seed value falsifies it, a
no-argument seed request restarts the window; sampling calls are not
explicit seeds, so they leave it unchanged. -/
def noExplicitSeedSince (cur : Bool) : List Op → Bool
  | [] => cur
  | .seedVal _ :: ops => noExplicitSeedSince false ops
  | .seedReq :: ops => noExplicitSeedSince true ops
  | _ :: ops => noExplicitSeedSince cur ops

/-- Raw engine words are 32-bit values. -/
theorem mtNext_fst_lt (g : MT) : (mtNext g).1 < 4294967296 := by
  simp only [mtNext]
  exact Nat.mod_lt _ (by norm_num)

/-- The rejection loop with past = (ur + 1) * scaling never returns a
value above ur. -/
theorem uidLoop_le (scaling ur : Nat) :
    ∀ (fuel : Nat) (g : MT), (uidLoop scaling ((ur + 1) * scaling) fuel g).1 ≤ ur := by
  intro fuel
  induction fuel with
  | zero => intro g; simp [uidLoop]
  | succ f ih =>
    intro g
    simp only [uidLoop]
    split
    · next h =>
      have h2 : (mtNext g).1 / scaling < ur + 1 :=
        Nat.div_lt_of_lt_mul (by rw [Nat.mul_comm] at h; exact h)
      omega
    · exact ih _

/-- A uniform-integer sample over [0, urange] lies in [0, urange]. -/
theorem uidSample_le (urange : Nat) (g : MT) : (uidSample urange g).1 ≤ urange := by
  simp only [uidSample]
  exact uidLoop_le _ urange uidFuel g

/-- A canonical draw is nonnegative. -/
theorem canonical_nonneg (g : MT) : 0 ≤ (canonical g).1 := by
  simp only [canonical]
  positivity

/-- A canonical draw is below 1. -/
theorem canonical_lt_one (g : MT) : (canonical g).1 < 1 := by
  have h1 := mtNext_fst_lt g
  have h2 := mtNext_fst_lt (mtNext g).2
  simp only [canonical]
  rw [div_lt_one (by norm_num)]
  have h3 : (mtNext g).1 + (mtNext (mtNext g).2).1 * 4294967296 < 18446744073709551616 := by
    omega
  exact_mod_cast h3

/-- ck_seed always leaves the flag cleared. -/
theorem ck_seed_clears (st : GRand) (es : List Nat) :
    (GRand.ck_seed st es).st.seed_needed = false := by
  simp only [GRand.ck_seed]
  split <;> simp_all

/-- On an already-seeded object, ck_seed is the identity and draws no
device entropy. -/
theorem ck_seed_of_seeded (st : GRand) (es : List Nat) (h : st.seed_needed = false) :
    GRand.ck_seed st es = ⟨(), st, es, false⟩ := by
  simp [GRand.ck_seed, h]

/-- On a pending object, ck_seed seeds the engine from the device and
clears the flag. -/
theorem ck_seed_of_pending (st : GRand) (es : List Nat) (h : st.seed_needed = true) :
    GRand.ck_seed st es = ⟨(), ⟨false, mtInit (es.headD 0)⟩, es.tail, true⟩ := by
  simp [GRand.ck_seed, h]

/-- Member i leaves the flag cleared. -/
theorem i_clears (st : GRand) (es : List Nat) (n : Int) :
    (GRand.i st es n).st.seed_needed = false := by
  simp only [GRand.i, GRand.callN]
  split_ifs <;> simp [ck_seed_clears]

/-- Member operator()(n) leaves the flag cleared. -/
theorem callN_clears (st : GRand) (es : List Nat) (n : Int) :
    (GRand.callN st es n).st.seed_needed = false := by
  simp only [GRand.callN]
  split_ifs <;> simp [ck_seed_clears]

/-- Member d leaves the flag cleared. -/
theorem d_clears (st : GRand) (es : List Nat) (x : ℚ) :
    (GRand.d st es x).st.seed_needed = false := by
  simp only [GRand.d]
  split_ifs <;> simp [ck_seed_clears]

/-- Member b leaves the flag cleared. -/
theorem b_clears (st : GRand) (es : List Nat) (p : ℚ) :
    (GRand.b st es p).st.seed_needed = false := by
  simp only [GRand.b]
  split_ifs <;> simp [ck_seed_clears]

/-- Member operator()() leaves the flag cleared. -/
theorem call0_clears (st : GRand) (es : List Nat) :
    (GRand.call0 st es).st.seed_needed = false := by
  simp [GRand.call0, ck_seed_clears]

/-- The flag after one operation is `nextPending` of the flag before. -/
theorem step_pending (st : GRand) (es : List Nat) (op : Op) :
    (step st es op).st.seed_needed = nextPending st.seed_needed op := by
  cases op with
  | i n => simpa [step, nextPending] using i_clears st es n
  | d x => simpa [step, nextPending] using d_clears st es x
  | b p => simpa [step, nextPending] using b_clears st es p
  | call0 => simpa [step, nextPending] using call0_clears st es
  | callN n => simpa [step, nextPending] using callN_clears st es n
  | seedReq => simp [step, nextPending, GRand.seedReq]
  | seedVal s => simp [step, nextPending, GRand.seedVal]

/-- A sampling operation leaves the flag cleared. -/
theorem step_sampling_clears (st : GRand) (es : List Nat) (op : Op)
    (h : op.isSampling = true) : (step st es op).st.seed_needed = false := by
  rw [step_pending]
  cases op <;> simp_all [nextPending, Op.isSampling]

/-- On an already-seeded state, an operation neither reads nor consumes
the entropy stream: the value and new state do not depend on it, the
stream is returned unchanged, and no device draw happens. -/
theorem step_seeded (st : GRand) (es es2 : List Nat) (op : Op) (h : st.seed_needed = false) :
    step st es op = ⟨(step st es2 op).val, (step st es2 op).st, es, false⟩ := by
  have hck : ∀ es3, GRand.ck_seed st es3 = ⟨(), st, es3, false⟩ :=
    fun es3 => ck_seed_of_seeded st es3 h
  cases op <;>
    simp only [step, GRand.i, GRand.callN, GRand.d, GRand.b, GRand.call0,
      GRand.seedReq, GRand.seedVal, hck] <;>
    split_ifs <;> rfl

/-- On an already-seeded state, an operation draws no device entropy. -/
theorem step_seeded_dev (st : GRand) (es : List Nat) (op : Op) (h : st.seed_needed = false) :
    (step st es op).dev = false := by
  rw [step_seeded st es es op h]

/-- On a pending state, a sampling operation performs the device seed. -/
theorem step_pending_dev (st : GRand) (es : List Nat) (op : Op)
    (h1 : st.seed_needed = true) (h2 : op.isSampling = true) :
    (step st es op).dev = true := by
  have hck : GRand.ck_seed st es = ⟨(), ⟨false, mtInit (es.headD 0)⟩, es.tail, true⟩ :=
    ck_seed_of_pending st es h1
  cases op with
  | seedReq => simp [Op.isSampling] at h2
  | seedVal s => simp [Op.isSampling] at h2
  | i n =>
    simp only [step, GRand.i, GRand.callN, hck]
    split_ifs <;> rfl
  | d x =>
    simp only [step, GRand.d, hck]
    split_ifs <;> rfl
  | b p =>
    simp only [step, GRand.b, hck]
    split_ifs <;> rfl
  | call0 => simp only [step, GRand.call0, hck]
  | callN n =>
    simp only [step, GRand.callN, hck]
    split_ifs <;> rfl

/-- The flag after a run is `expectedPending` of the flag before. -/
theorem run_pending (ops : List Op) :
    ∀ (st : GRand) (es : List Nat),
      (run st es ops).state.seed_needed = expectedPending st.seed_needed ops := by
  induction ops with
  | nil => intro st es; rfl
  | cons op ops ih =>
    intro st es
    simp only [run, expectedPending]
    rw [ih, step_pending]

/-- Outputs of a run of sampling operations from a seeded state do not
depend on the entropy stream. -/
theorem run_outs_indep (ops : List Op) :
    ∀ (st : GRand) (es es2 : List Nat), st.seed_needed = false →
      (∀ op ∈ ops, op.isSampling = true) →
      (run st es ops).outs = (run st es2 ops).outs := by
  induction ops with
  | nil => intro st es es2 _ _; rfl
  | cons op ops ih =>
    intro st es es2 h hs
    have hop : op.isSampling = true := hs op (List.mem_cons_self op ops)
    have hs2 : ∀ o ∈ ops, o.isSampling = true := fun o ho => hs o (List.mem_cons_of_mem op ho)
    simp only [run]
    rw [step_seeded st es es2 op h]
    simp only [List.cons.injEq, true_and]
    exact ih _ es (step st es2 op).es (step_sampling_clears st es2 op hop) hs2

/-- A run of sampling operations from a seeded state draws no device
entropy. -/
theorem run_devs_zero (ops : List Op) :
    ∀ (st : GRand) (es : List Nat), st.seed_needed = false →
      (∀ op ∈ ops, op.isSampling = true) →
      (run st es ops).devs = 0 := by
  induction ops with
  | nil => intro st es _ _; rfl
  | cons op ops ih =>
    intro st es h hs
    have hop : op.isSampling = true := hs op (List.mem_cons_self op ops)
    have hs2 : ∀ o ∈ ops, o.isSampling = true := fun o ho => hs o (List.mem_cons_of_mem op ho)
    have hdev := step_seeded_dev st es op h
    have hrest := ih (step st es op).st (step st es op).es
      (step_sampling_clears st es op hop) hs2
    simp [run, hdev, hrest]

/-- Claim C1: for every int value n <= 0, i(n) (implemented via the
one-argument operator()) returns 0, and for every int value n > 0 the
returned value lies in 0 .. n-1.  The hypotheses restrict n to the range
of a 32-bit C++ int, the instantiation used by i. -/
theorem grand_i_range (st : GRand) (es : List Nat) (n : Int)
    (h1 : -2147483648 ≤ n) (h2 : n ≤ 2147483647) :
    (n ≤ 0 → (GRand.i st es n).val = 0) ∧
    (0 < n → 0 ≤ (GRand.i st es n).val ∧ (GRand.i st es n).val ≤ n - 1) := by
  constructor
  · intro hn
    simp [GRand.i, GRand.callN, hn]
  · intro hn
    have hn2 : ¬ n ≤ 0 := by omega
    simp only [GRand.i, GRand.callN, if_neg hn2]
    have hb := uidSample_le (n - 1).toNat (GRand.ck_seed st es).st.rng
    constructor
    · exact Int.ofNat_nonneg _
    · omega

/-- Claim C1 witness: at n = -3 the call returns 0; at n = 5 the value
lies in 0 .. 4. -/
theorem grand_i_range_witness :
    (GRand.i (mkSeeded 7) [] (-3)).val = 0 ∧
    (0 ≤ (GRand.i (mkSeeded 7) [] 5).val ∧ (GRand.i (mkSeeded 7) [] 5).val ≤ 5 - 1) :=
  ⟨(grand_i_range (mkSeeded 7) [] (-3) (by norm_num) (by norm_num)).1 (by norm_num),
   (grand_i_range (mkSeeded 7) [] 5 (by norm_num) (by norm_num)).2 (by norm_num)⟩

/-- Claim C10: after any public sampling call (i, d, b, the zero- and
the one-argument operator()), the `_seed_needed` flag is false,
whatever the state before the call — every sampling operation starts
with ck_seed, which clears the flag, including on the short-circuit
paths d(0), b(p <= 0), b(p >= 1) covered by the universally quantified
x and p. -/
theorem sampling_clears_flag (st : GRand) (es : List Nat) (n : Int) (x p : ℚ) :
    (GRand.i st es n).st.seed_needed = false ∧
    (GRand.d st es x).st.seed_needed = false ∧
    (GRand.b st es p).st.seed_needed = false ∧
    (GRand.call0 st es).st.seed_needed = false ∧
    (GRand.callN st es n).st.seed_needed = false :=
  ⟨i_clears st es n, d_clears st es x, b_clears st es p,
   call0_clears st es, callN_clears st es n⟩

/-- Claim C6: an object constructed with no seed and then given seed s
before any sampling is in exactly the state of an object constructed
with seed s, so every subsequent run of operations gives the same
results. -/
theorem seed_after_default_eq_seeded (s : Nat) :
    GRand.seedVal mkDefault s = mkSeeded s ∧
    ∀ (es : List Nat) (ops : List Op),
      run (GRand.seedVal mkDefault s) es ops = run (mkSeeded s) es ops :=
  ⟨rfl, fun _ _ => rfl⟩

/-- Claim C3: two objects constructed with the same explicit seed
return identical output sequences on identical sampling-call sequences,
whatever entropy the device would supply to either (no device draw
happens, so the streams are irrelevant). -/
theorem same_seed_same_outputs (s : Nat) (ops : List Op)
    (hs : ∀ op ∈ ops, op.isSampling = true) (e1 e2 : List Nat) :
    (run (mkSeeded s) e1 ops).outs = (run (mkSeeded s) e2 ops).outs :=
  run_outs_indep ops (mkSeeded s) e1 e2 rfl hs

/-- Claim C3 witness: a concrete seed and call sequence under two
different entropy streams. -/
theorem same_seed_same_outputs_witness :
    (run (mkSeeded 7) [1, 2] [Op.i 5, Op.d 1, Op.b (1/2)]).outs =
    (run (mkSeeded 7) [9, 8] [Op.i 5, Op.d 1, Op.b (1/2)]).outs :=
  same_seed_same_outputs 7 [Op.i 5, Op.d 1, Op.b (1/2)] (by decide) [1, 2] [9, 8]

/-- Claim C5: from a state with the flag set (as established by the
no-seed constructor or by a no-argument seed request), a nonempty run
of sampling calls draws from the entropy device exactly once — at the
first call — and never again before the next seed request. -/
theorem one_device_seed_per_request :
    mkDefault.seed_needed = true ∧
    (∀ st0 : GRand, (GRand.seedReq st0).seed_needed = true) ∧
    ∀ (st : GRand) (es : List Nat) (op : Op) (ops : List Op),
      st.seed_needed = true → (∀ o ∈ op :: ops, o.isSampling = true) →
      (run st es (op :: ops)).devs = 1 := by
  refine ⟨rfl, fun st0 => rfl, ?_⟩
  intro st es op ops h hall
  have hop : op.isSampling = true := hall op (List.mem_cons_self op ops)
  have hdev := step_pending_dev st es op h hop
  have hrest := run_devs_zero ops (step st es op).st (step st es op).es
    (step_sampling_clears st es op hop)
    (fun o ho => hall o (List.mem_cons_of_mem op ho))
  simp [run, hdev, hrest]

/-- Claim C5 witness: a default-constructed object runs two sampling
calls with exactly one device draw. -/
theorem one_device_seed_per_request_witness :
    (run mkDefault [3, 4] [Op.b 0, Op.i 2]).devs = 1 :=
  one_device_seed_per_request.2.2 mkDefault [3, 4] (Op.b 0) [Op.i 2] rfl (by decide)

/-- Claim C2: for every bound x (doubles modelled as exact rationals),
d(x) returns a value in [0, x) when x > 0; when x < 0 it returns the
negation of a uniform_real sample over [0, -x), hence a value in
(x, 0]; and it returns exactly 0 when x = 0. -/
theorem grand_d_range (st : GRand) (es : List Nat) (x : ℚ) :
    (0 < x → 0 ≤ (GRand.d st es x).val ∧ (GRand.d st es x).val < x) ∧
    (x < 0 → x < (GRand.d st es x).val ∧ (GRand.d st es x).val ≤ 0 ∧
      (GRand.d st es x).val = -(urd 0 (-x) (GRand.ck_seed st es).st.rng).1) ∧
    (x = 0 → (GRand.d st es x).val = 0) := by
  have hc0 := canonical_nonneg (GRand.ck_seed st es).st.rng
  have hc1 := canonical_lt_one (GRand.ck_seed st es).st.rng
  refine ⟨?_, ?_, ?_⟩
  · intro hx
    simp only [GRand.d, urd, gt_iff_lt, if_pos hx, sub_zero, add_zero]
    constructor
    · exact mul_nonneg hc0 hx.le
    · nlinarith
  · intro hx
    have hx2 : ¬ x > 0 := by linarith
    simp only [GRand.d, urd, if_neg hx2, if_pos hx, sub_zero, add_zero]
    refine ⟨by nlinarith, by nlinarith, trivial⟩
  · intro hx
    subst hx
    simp [GRand.d]

/-- Claim C2 witness: concrete bounds 1, -1 and 0 on a seeded object. -/
theorem grand_d_range_witness :
    (0 ≤ (GRand.d (mkSeeded 7) [] 1).val ∧ (GRand.d (mkSeeded 7) [] 1).val < 1) ∧
    (-1 < (GRand.d (mkSeeded 7) [] (-1)).val ∧ (GRand.d (mkSeeded 7) [] (-1)).val ≤ 0) ∧
    (GRand.d (mkSeeded 7) [] 0).val = 0 :=
  ⟨(grand_d_range (mkSeeded 7) [] 1).1 (by norm_num),
   ⟨((grand_d_range (mkSeeded 7) [] (-1)).2.1 (by norm_num)).1,
    ((grand_d_range (mkSeeded 7) [] (-1)).2.1 (by norm_num)).2.1⟩,
   (grand_d_range (mkSeeded 7) [] 0).2.2 rfl⟩

/-- Claim C4 counterexample: on a pending object (here: flag set,
engine seeded from 1), d(0) runs ck_seed first, which re-seeds the
engine from the device draw 2 — so the engine state is NOT unchanged
across the call, refuting the claim's unconditional reading. -/
theorem d_zero_counterexample :
    ¬ ((GRand.d ⟨true, mtInit 1⟩ [2] 0).st.rng = mtInit 1) := by decide

/-- Claim C4 amended: d(0) returns exactly 0 and performs no sampling —
the engine is never advanced, and apart from the lazy seed check the
state is untouched: on an already-seeded object the call leaves state
and entropy stream unchanged and draws nothing, and a repeated d(0)
call always leaves the state from the first call unchanged. -/
theorem d_zero_short_circuit (st : GRand) (es : List Nat) :
    (GRand.d st es 0).val = 0 ∧
    (GRand.d st es 0).st.rng = (GRand.ck_seed st es).st.rng ∧
    (st.seed_needed = false → GRand.d st es 0 = ⟨0, st, es, false⟩) ∧
    (GRand.d (GRand.d st es 0).st (GRand.d st es 0).es 0).st = (GRand.d st es 0).st := by
  have hid : ∀ (st2 : GRand) (es2 : List Nat), st2.seed_needed = false →
      GRand.d st2 es2 0 = ⟨0, st2, es2, false⟩ := by
    intro st2 es2 h
    simp [GRand.d, GRand.ck_seed, h]
  refine ⟨?_, ?_, hid st es, ?_⟩
  · simp [GRand.d]
  · simp [GRand.d]
  · have h1 : (GRand.d st es 0).st.seed_needed = false := d_clears st es 0
    rw [hid _ _ h1]

/-- Claim C4 amended witness: on a seeded object the d(0) call is the
identity on state and stream and returns 0. -/
theorem d_zero_short_circuit_witness :
    GRand.d (mkSeeded 3) [] 0 = ⟨0, mkSeeded 3, [], false⟩ :=
  (d_zero_short_circuit (mkSeeded 3) []).2.2.1 rfl

/-- Claim C7 counterexample: on a pending object, b(0) runs ck_seed
first, which re-seeds the engine from the device draw 2 — entropy is
consumed and the engine state changes, refuting the claim's
unconditional "without consuming entropy (engine state unchanged)". -/
theorem b_degenerate_counterexample :
    ¬ ((GRand.b ⟨true, mtInit 1⟩ [2] 0).st.rng = mtInit 1) := by decide

/-- Claim C7 amended: b(p) with p <= 0 always returns false and with
p >= 1 always returns true; in both cases no Bernoulli sampling
happens — the engine is never advanced, and on an already-seeded
object the call leaves state and entropy stream unchanged and draws no
entropy; for 0 < p < 1 the result is a Bernoulli draw with parameter p
(a canonical draw compared against p). -/
theorem b_degenerate_short_circuit (st : GRand) (es : List Nat) (p : ℚ) :
    (p ≤ 0 → (GRand.b st es p).val = false ∧
      (GRand.b st es p).st.rng = (GRand.ck_seed st es).st.rng ∧
      (st.seed_needed = false → GRand.b st es p = ⟨false, st, es, false⟩)) ∧
    (1 ≤ p → (GRand.b st es p).val = true ∧
      (GRand.b st es p).st.rng = (GRand.ck_seed st es).st.rng ∧
      (st.seed_needed = false → GRand.b st es p = ⟨true, st, es, false⟩)) ∧
    (0 < p → p < 1 → (GRand.b st es p).val = (bern p (GRand.ck_seed st es).st.rng).1) := by
  refine ⟨?_, ?_, ?_⟩
  · intro hp
    simp only [GRand.b, if_pos hp]
    refine ⟨trivial, trivial, ?_⟩
    intro h
    rw [ck_seed_of_seeded st es h]
  · intro hp
    have hp2 : ¬ p ≤ 0 := by linarith
    simp only [GRand.b, if_neg hp2, ge_iff_le, if_pos hp]
    refine ⟨trivial, trivial, ?_⟩
    intro h
    rw [ck_seed_of_seeded st es h]
  · intro hp1 hp2
    have h1 : ¬ p ≤ 0 := by linarith
    have h2 : ¬ p ≥ 1 := by linarith
    simp only [GRand.b, if_neg h1, if_neg h2]

/-- Claim C7 amended witness: concrete degenerate parameters 0 and 1 on
a seeded object. -/
theorem b_degenerate_short_circuit_witness :
    (GRand.b (mkSeeded 3) [] 0).val = false ∧
    GRand.b (mkSeeded 3) [] 0 = ⟨false, mkSeeded 3, [], false⟩ ∧
    (GRand.b (mkSeeded 3) [] 1).val = true :=
  ⟨((b_degenerate_short_circuit (mkSeeded 3) [] 0).1 (by norm_num)).1,
   ((b_degenerate_short_circuit (mkSeeded 3) [] 0).1 (by norm_num)).2.2 rfl,
   ((b_degenerate_short_circuit (mkSeeded 3) [] 1).2.1 (by norm_num)).1⟩

/-- Claim C8 counterexample: a default-constructed object runs one
sampling call b(0); afterwards `_seed_needed` is false although no
explicit seed has been applied since construction (the trace holds no
seedVal and no seedReq) — so "pendingSeed is true exactly when no
explicit seed has been applied" fails: the lazy entropy seed also
clears the flag. -/
theorem pending_flag_counterexample :
    ¬ (((run mkDefault [5] [Op.b 0]).state.seed_needed = true) ↔
       (noExplicitSeedSince true [Op.b 0] = true)) := by decide

/-- Claim C8 amended: the engine is seeded before any output is
produced — ck_seed always leaves the flag cleared, and from a pending
state it seeds the engine from the device — and `_seed_needed` is true
exactly when no seeding event, neither an explicit seed value nor the
lazy entropy seed performed by a sampling call, has occurred since
construction or since the most recent no-argument seed request
(`expectedPending` folds exactly that over the trace). -/
theorem pending_flag_invariant (st : GRand) (es : List Nat) (ops : List Op) :
    (run st es ops).state.seed_needed = expectedPending st.seed_needed ops ∧
    (GRand.ck_seed st es).st.seed_needed = false ∧
    (st.seed_needed = true →
      (GRand.ck_seed st es).st.rng = mtInit (es.headD 0) ∧ (GRand.ck_seed st es).dev = true) :=
  ⟨run_pending ops st es, ck_seed_clears st es,
   fun h => by rw [ck_seed_of_pending st es h]; exact ⟨rfl, rfl⟩⟩

/-- Claim C8 amended witness: a default-constructed object, its lazy
seed drawn from device value 3. -/
theorem pending_flag_invariant_witness :
    (GRand.ck_seed mkDefault [3]).st.rng = mtInit 3 ∧
    (GRand.ck_seed mkDefault [3]).dev = true :=
  (pending_flag_invariant mkDefault [3] []).2.2 rfl

/-- Claim C9: every public operation is total — each is a plain
function returning a value for every input (there is no error result
in any of the definitions), and degenerate parameters give the
documented defaults: i(n) with n <= 0 gives 0, d(0) gives 0, b(p) with
p <= 0 gives false and with p >= 1 gives true. -/
theorem operations_total_defaults (st : GRand) (es : List Nat) (n : Int) (p : ℚ) :
    (n ≤ 0 → (GRand.i st es n).val = 0) ∧
    (GRand.d st es 0).val = 0 ∧
    (p ≤ 0 → (GRand.b st es p).val = false) ∧
    (1 ≤ p → (GRand.b st es p).val = true) := by
  refine ⟨?_, ?_, ?_, ?_⟩
  · intro hn
    simp [GRand.i, GRand.callN, hn]
  · simp [GRand.d]
  · intro hp
    simp [GRand.b, hp]
  · intro hp
    have hp2 : ¬ p ≤ 0 := by linarith
    simp [GRand.b, hp2, hp]

/-- Claim C9 witness: concrete degenerate parameters on a seeded
object. -/
theorem operations_total_defaults_witness :
    (GRand.i (mkSeeded 5) [] (-1)).val = 0 ∧
    (GRand.d (mkSeeded 5) [] 0).val = 0 ∧
    (GRand.b (mkSeeded 5) [] (-2)).val = false ∧
    (GRand.b (mkSeeded 5) [] 2).val = true :=
  ⟨(operations_total_defaults (mkSeeded 5) [] (-1) (-2)).1 (by norm_num),
   (operations_total_defaults (mkSeeded 5) [] (-1) (-2)).2.1,
   (operations_total_defaults (mkSeeded 5) [] (-1) (-2)).2.2.1 (by norm_num),
   (operations_total_defaults (mkSeeded 5) [] (-1) 2).2.2.2 (by norm_num)⟩
